import Mathlib

/-
Shallow embedding of the boltdb-rs storage-engine core, written from the
Rust sources (src/node.rs, src/common/inode.rs, src/common/page.rs,
src/common/meta.rs, src/cursor.rs).  Machine integers are modelled as Nat
with explicit wrap-around only where the source can overflow; Rust panics
(assert!, todo!, index out of bounds, checked arithmetic in debug builds)
are modelled as Except.error.
-/

/-- Size of the Page header: size_of::<Page>() with id u64, flags u16,
count u16, overflow u32 (PhantomData is zero-sized), C layout. -/
def PAGE_HEADER_SIZE : Nat := 16

/-- size_of::<LeafPageElement>(): four u32 fields. -/
def LEAF_PAGE_ELEMENT_SIZE : Nat := 16

/-- size_of::<BranchPageElement>(): u32, u32, u64. -/
def BRANCH_PAGE_ELEMENT_SIZE : Nat := 16

/-- MIN_KEYS_PER_PAGE from src/common/page.rs. -/
def MIN_KEYS_PER_PAGE : Nat := 2

/-- MAGIC from src/common/types.rs. -/
def MAGIC : Nat := 0xED0CDAED

/-- VERSION from src/common/types.rs. -/
def VERSION : Nat := 2

/-- PGID_NO_FREELIST sentinel (u64::MAX) from src/common/types.rs. -/
def PGID_NO_FREELIST : Nat := 0xFFFFFFFFFFFFFFFF

/-- usize::MAX on the 64-bit targets the crate builds for. -/
def USIZE_MAX : Nat := 0xFFFFFFFFFFFFFFFF

/-- In-memory inode (src/common/inode.rs, struct Inode): flags u32,
pgid u64, key and value byte vectors. -/
structure Inode where
  flags : Nat
  pgid : Nat
  key : List Nat
  value : List Nat
deriving DecidableEq, Repr

/-- Inode::default(): all fields zero / empty. -/
instance : Inhabited Inode := ⟨⟨0, 0, [], []⟩⟩

/-- Rust byte-slice Ord: lexicographic element comparison, then length
(as in <[u8] as Ord>::cmp used by Inodes::binary_search_by). -/
def compareBytes : List Nat → List Nat → Ordering
  | [], [] => .eq
  | [], _ :: _ => .lt
  | _ :: _, [] => .gt
  | a :: as, b :: bs =>
    if a < b then .lt
    else if b < a then .gt
    else compareBytes as bs

/-- Core of Vec::binary_search_by over the inode keys: classic halving
loop on the interval [lo, hi).  The interval halves every iteration, so
the loop runs at most lo..hi-halving many times; the fuel argument is a
structural bound on the iteration count and is never exhausted when
called with fuel = length + 1. -/
def binarySearchLoop (inodes : List Inode) (key : List Nat) :
    Nat → Nat → Nat → Nat ⊕ Nat
  | 0, lo, _ => .inr lo
  | fuel + 1, lo, hi =>
    if lo < hi then
      let mid := (lo + hi) / 2
      match compareBytes ((inodes.getD mid default).key) key with
      | .lt => binarySearchLoop inodes key fuel (mid + 1) hi
      | .gt => binarySearchLoop inodes key fuel lo mid
      | .eq => .inl mid
    else .inr lo

/-- Inodes::binary_search_by (src/common/inode.rs): Sum.inl i when the
key is found at index i, Sum.inr i with the insertion index otherwise. -/
def binary_search_by (inodes : List Inode) (key : List Nat) : Nat ⊕ Nat :=
  binarySearchLoop inodes key (inodes.length + 1) 0 inodes.length

/-- Node::put (src/node.rs lines 268-305).  Asserts both keys non-empty;
finds the index by binary search on old_key; inserts a default inode at
the index only when index < len and the key there differs from old_key;
then writes flags/key/value/pgid through Inodes::get_mut(index), which
indexes the vector and panics when index is out of bounds (the final
zero-length-inode-key assert cannot fire because new_key was checked). -/
def node_put (inodes : List Inode) (oldKey newKey value : List Nat)
    (pgid flags : Nat) : Except String (List Inode) :=
  if oldKey.length = 0 then .error "put: zero-length old key"
  else if newKey.length = 0 then .error "put: zero-length new key"
  else
    let index :=
      match binary_search_by inodes oldKey with
      | .inl i => i
      | .inr i => i
    let inodes1 :=
      if index < inodes.length ∧ ¬ ((inodes.getD index default).key = oldKey)
      then inodes.insertIdx index default
      else inodes
    if index < inodes1.length then
      .ok (inodes1.set index ⟨flags, pgid, newKey, value⟩)
    else .error "index out of bounds"

/-- Node::del (src/node.rs lines 336-364).  Binary-searches the key.
On Err the key is absent and the node is returned unchanged.  On Ok the
source then returns early when index >= len OR when the key at index
compares equal to the searched key (the comparison in the source is
.cmp(key).is_eq()); only past that guard does it remove the inode and
set the unbalanced flag. -/
def node_del (inodes : List Inode) (unbalanced : Bool) (key : List Nat) :
    List Inode × Bool :=
  match binary_search_by inodes key with
  | .inr _ => (inodes, unbalanced)
  | .inl index =>
    if index ≥ inodes.length ∨
        compareBytes ((inodes.getD index default).key) key = .eq then
      (inodes, unbalanced)
    else
      (inodes.eraseIdx index, true)

/-- Claim C7: Node::put overwrites in place on an exact old_key match and
otherwise inserts at the sort position, including past the last inode.
The insertion guard in the source is index < len && key differs, so when
the insertion position equals len (empty node, or old_key greater than
every key) no slot is inserted and get_mut(len) indexes out of bounds
and panics instead of appending. -/
theorem node_put_append_panics :
    node_put [] [1] [1] [5] 0 0 = .error "index out of bounds" ∧
    node_put [⟨0, 0, [1], [9]⟩] [2] [2] [5] 0 0 =
      .error "index out of bounds" := by
  constructor <;> rfl

/-- Claim C2: Node::del on a present key.  The early-return guard is
inverted (it returns when the found key IS equal instead of when it is
not), so deleting the only key [1] from a one-inode leaf leaves the
inodes unchanged and never sets the unbalanced flag. -/
theorem node_del_found_is_noop :
    node_del [⟨0, 0, [1], [2]⟩] false [1] = ([⟨0, 0, [1], [2]⟩], false) := by
  rfl

/-!  Meta (src/common/meta.rs): superblock with FNV-1a-64 checksum. -/

/-- Meta struct in C layout (src/common/meta.rs): magic u32, version u32,
page_size u32, flags u32, root InBucket (root pgid u64, sequence u64),
freelist u64, pgid u64 (high-water mark), txid u64, checksum u64. -/
structure Meta where
  magic : Nat
  version : Nat
  page_size : Nat
  flags : Nat
  root_root : Nat
  root_sequence : Nat
  freelist : Nat
  pgid : Nat
  txid : Nat
  checksum : Nat
deriving DecidableEq, Repr

/-- Little-endian bytes of a u32 field. -/
def u32LE (x : Nat) : List Nat :=
  [x % 256, x / 2 ^ 8 % 256, x / 2 ^ 16 % 256, x / 2 ^ 24 % 256]

/-- Little-endian bytes of a u64 field. -/
def u64LE (x : Nat) : List Nat :=
  [x % 256, x / 2 ^ 8 % 256, x / 2 ^ 16 % 256, x / 2 ^ 24 % 256,
   x / 2 ^ 32 % 256, x / 2 ^ 40 % 256, x / 2 ^ 48 % 256, x / 2 ^ 56 % 256]

/-- Meta::as_slice_no_checksum: the raw bytes of the struct up to
offset_of!(Meta, checksum) = 56, i.e. every field before checksum in
C layout, little-endian. -/
def metaBytesNoChecksum (m : Meta) : List Nat :=
  u32LE m.magic ++ u32LE m.version ++ u32LE m.page_size ++ u32LE m.flags ++
  u64LE m.root_root ++ u64LE m.root_sequence ++
  u64LE m.freelist ++ u64LE m.pgid ++ u64LE m.txid

/-- FNV-1a 64-bit over a byte list (fnv::FnvHasher): start from the
offset basis, xor each byte then multiply by the prime, mod 2^64. -/
def fnv1a64 (bytes : List Nat) : Nat :=
  bytes.foldl (fun h b => ((h ^^^ b) * 0x100000001b3) % 2 ^ 64)
    0xcbf29ce484222325

/-- Meta::sum64: FNV-1a-64 of the meta bytes preceding the checksum. -/
def meta_sum64 (m : Meta) : Nat :=
  fnv1a64 (metaBytesNoChecksum m)

/-- Error kinds returned by Meta::validate (src/errors.rs variants
Invalid, VersionMismatch, Checksum). -/
inductive MetaError where
  | Invalid
  | VersionMismatch
  | Checksum
deriving DecidableEq, Repr

/-- Meta::validate (src/common/meta.rs lines 45-54): checks magic, then
version, then the checksum — but the checksum branch only fires when the
stored checksum is nonzero AND differs from sum64(). -/
def meta_validate (m : Meta) : Except MetaError Unit :=
  if m.magic ≠ MAGIC then .error .Invalid
  else if m.version ≠ VERSION then .error .VersionMismatch
  else if m.checksum ≠ 0 ∧ m.checksum ≠ meta_sum64 m then .error .Checksum
  else .ok ()

/-- Page header fields (src/common/page.rs struct Page): id u64,
flags u16 (bit 0x01 branch, 0x02 leaf, 0x04 meta, 0x10 freelist),
count u16, overflow u32. -/
structure PageHdr where
  id : Nat
  flags : Nat
  count : Nat
  overflow : Nat
deriving DecidableEq, Repr

/-- PageFlags::META_PAGE bit. -/
def META_PAGE_FLAG : Nat := 0x04

/-- Meta::write (src/common/meta.rs lines 57-83): panics when the root
bucket pgid is not below the high-water mark, or when a persisted
freelist pgid is not below it; otherwise sets the destination page id to
txid % 2 and the meta flag, recomputes the checksum and copies the meta
into the page body (returned here as the second component). -/
def meta_write (m : Meta) (p : PageHdr) : Except String (PageHdr × Meta) :=
  if m.root_root ≥ m.pgid then
    .error "root bucket pgid above high water mark"
  else if m.freelist ≥ m.pgid ∧ m.freelist ≠ PGID_NO_FREELIST then
    .error "freelist pgid above high water mark"
  else
    let p1 : PageHdr := { p with id := m.txid % 2, flags := META_PAGE_FLAG }
    let m1 : Meta := { m with checksum := meta_sum64 m }
    .ok (p1, m1)

set_option maxRecDepth 8192 in
/-- Claim C3 (counterexample): a Meta with correct magic and version,
stored checksum 0 and true FNV-1a sum ≠ 0 is accepted by validate even
though the stored checksum does not equal the hash, because the checksum
branch is guarded by checksum ≠ 0. -/
theorem meta_validate_zero_checksum_accepted :
    (Meta.mk MAGIC VERSION 0 0 0 0 0 0 0 0).magic = MAGIC ∧
    (Meta.mk MAGIC VERSION 0 0 0 0 0 0 0 0).version = VERSION ∧
    (Meta.mk MAGIC VERSION 0 0 0 0 0 0 0 0).checksum ≠
      meta_sum64 (Meta.mk MAGIC VERSION 0 0 0 0 0 0 0 0) ∧
    meta_validate (Meta.mk MAGIC VERSION 0 0 0 0 0 0 0 0) = .ok () := by
  refine ⟨rfl, rfl, by decide, rfl⟩

/-- Claim C3 (amended): Meta::validate accepts a meta exactly when the
magic and version are correct and the stored checksum is either zero or
equal to the FNV-1a-64 hash of the meta bytes preceding the checksum
field; in particular a nonzero mismatching checksum yields the
checksum-mismatch error. -/
theorem meta_validate_ok_iff (m : Meta) :
    meta_validate m = .ok () ↔
      (m.magic = MAGIC ∧ m.version = VERSION ∧
        (m.checksum = 0 ∨ m.checksum = meta_sum64 m)) := by
  unfold meta_validate
  split
  · rename_i h
    simp only [reduceCtorEq, false_iff]
    tauto
  · split
    · rename_i h1 h2
      simp only [reduceCtorEq, false_iff]
      tauto
    · split
      · rename_i h1 h2 h3
        simp only [reduceCtorEq, false_iff]
        tauto
      · rename_i h1 h2 h3
        simp only [true_iff]
        push_neg at h1 h2 h3
        refine ⟨h1, h2, ?_⟩
        by_cases hz : m.checksum = 0
        · exact Or.inl hz
        · exact Or.inr (h3 hz)

/-- Claim C4: under the in-range preconditions Meta::write succeeds and
stores the meta at page id txid % 2, so two successive transaction ids
land on different pages in the two-slot set. -/
theorem meta_write_two_slot (m1 m2 : Meta) (p1 p2 : PageHdr)
    (h1 : m1.root_root < m1.pgid)
    (h2 : m1.freelist = PGID_NO_FREELIST ∨ m1.freelist < m1.pgid)
    (h3 : m2.root_root < m2.pgid)
    (h4 : m2.freelist = PGID_NO_FREELIST ∨ m2.freelist < m2.pgid)
    (h5 : m2.txid = m1.txid + 1) :
    ∃ q1 n1 q2 n2,
      meta_write m1 p1 = .ok (q1, n1) ∧ meta_write m2 p2 = .ok (q2, n2) ∧
      q1.id = m1.txid % 2 ∧ q2.id = m2.txid % 2 ∧
      q1.id ≠ q2.id ∧ q1.id < 2 ∧ q2.id < 2 := by
  have e1 : ¬ m1.root_root ≥ m1.pgid := by omega
  have e2 : ¬ (m1.freelist ≥ m1.pgid ∧ m1.freelist ≠ PGID_NO_FREELIST) := by
    rcases h2 with h | h
    · exact fun hc => hc.2 h
    · exact fun hc => by omega
  have e3 : ¬ m2.root_root ≥ m2.pgid := by omega
  have e4 : ¬ (m2.freelist ≥ m2.pgid ∧ m2.freelist ≠ PGID_NO_FREELIST) := by
    rcases h4 with h | h
    · exact fun hc => hc.2 h
    · exact fun hc => by omega
  refine ⟨{ p1 with id := m1.txid % 2, flags := META_PAGE_FLAG },
    { m1 with checksum := meta_sum64 m1 },
    { p2 with id := m2.txid % 2, flags := META_PAGE_FLAG },
    { m2 with checksum := meta_sum64 m2 }, ?_, ?_, rfl, rfl, ?_, ?_, ?_⟩
  · simp [meta_write, e1, e2]
  · simp [meta_write, e3, e4]
  · show m1.txid % 2 ≠ m2.txid % 2
    omega
  · exact Nat.mod_lt _ (by omega)
  · exact Nat.mod_lt _ (by omega)

/-- Claim C4 witness: the two-slot theorem applied to concrete metas
with txids 6 and 7 and the no-freelist sentinel. -/
theorem meta_write_two_slot_witness :
    ∃ q1 n1 q2 n2,
      meta_write (Meta.mk MAGIC VERSION 0 0 3 0 PGID_NO_FREELIST 4 6 0)
        (PageHdr.mk 0 0 0 0) = .ok (q1, n1) ∧
      meta_write (Meta.mk MAGIC VERSION 0 0 3 0 PGID_NO_FREELIST 4 7 0)
        (PageHdr.mk 0 0 0 0) = .ok (q2, n2) ∧
      q1.id = 6 % 2 ∧ q2.id = 7 % 2 ∧
      q1.id ≠ q2.id ∧ q1.id < 2 ∧ q2.id < 2 :=
  meta_write_two_slot
    (Meta.mk MAGIC VERSION 0 0 3 0 PGID_NO_FREELIST 4 6 0)
    (Meta.mk MAGIC VERSION 0 0 3 0 PGID_NO_FREELIST 4 7 0)
    (PageHdr.mk 0 0 0 0) (PageHdr.mk 0 0 0 0)
    (by decide) (Or.inl rfl) (by decide) (Or.inl rfl) rfl

/-!  Node serialization (src/node.rs Node::write and
src/common/inode.rs write_inode_to_page). -/

/-- PageFlags::LEAF_PAGE bit. -/
def LEAF_PAGE_FLAG : Nat := 0x02

/-- PageFlags::BRANCH_PAGE bit. -/
def BRANCH_PAGE_FLAG : Nat := 0x01

/-- write_inode_to_page (src/common/inode.rs lines 172-226).  The loop
body runs once per inode: it asserts the key is non-empty, fills in the
page element (for a branch element it additionally asserts the child
pgid differs from the page id), and then executes an unconditional
todo!() before the key/value bytes would be copied, so the first
iteration panics with the standard todo message; with no inodes the loop
body never runs and the accumulated offset is returned. -/
def write_inode_to_page (isLeaf : Bool) (pageId : Nat)
    (inodes : List Inode) : Except String Nat :=
  match inodes with
  | [] => .ok (if isLeaf then LEAF_PAGE_ELEMENT_SIZE else
      BRANCH_PAGE_ELEMENT_SIZE * inodes.length)
  | item :: _ =>
    if item.key.length = 0 then .error "write: zero-length inode key"
    else if ¬ isLeaf ∧ item.pgid = pageId then
      .error "write: circular dependency occurred"
    else .error "not yet implemented"

/-- Node::write (src/node.rs lines 397-430): asserts the destination
page has count 0 and empty flags, sets the leaf or branch flag, panics
when the inode count does not fit in a u16, sets the count, returns
early on an empty node, and otherwise delegates to write_inode_to_page. -/
def node_write (isLeaf : Bool) (inodes : List Inode) (p : PageHdr) :
    Except String PageHdr :=
  if ¬ (p.count = 0 ∧ p.flags = 0) then
    .error "Node cannot be written to a non-empty page"
  else
    let p1 : PageHdr :=
      { p with flags := if isLeaf then LEAF_PAGE_FLAG else BRANCH_PAGE_FLAG }
    if inodes.length ≥ 65535 then .error "inode overflow"
    else
      let p2 : PageHdr := { p1 with count := inodes.length }
      if p2.count = 0 then .ok p2
      else
        match write_inode_to_page isLeaf p2.id inodes with
        | .error e => .error e
        | .ok _ => .ok p2

/-- Claim C1: writing a leaf node with one inode (non-empty key) into a
zeroed page does not complete — write_inode_to_page reaches the
unconditional todo!() and panics, so the write/read round trip cannot
return the node. -/
theorem node_write_hits_todo :
    node_write true [⟨0, 0, [1], [2]⟩] (PageHdr.mk 0 0 0 0) =
      .error "not yet implemented" := by
  rfl

/-!  Node sizing and splitting (src/node.rs). -/

/-- Node::page_element_size: leaf or branch element size. -/
def page_element_size (isLeaf : Bool) : Nat :=
  if isLeaf then LEAF_PAGE_ELEMENT_SIZE else BRANCH_PAGE_ELEMENT_SIZE

/-- Loop of Node::size_less_than: accumulate header + per-inode element
size + key and value lengths, returning false as soon as the running sum
reaches the limit. -/
def sizeLessThanLoop (elsz : Nat) (size : Nat) : List Inode → Nat → Bool
  | [], _ => true
  | i :: rest, sz =>
    let sz' := sz + elsz + i.key.length + i.value.length
    if sz' ≥ size then false
    else sizeLessThanLoop elsz size rest sz'

/-- Node::size_less_than (src/node.rs lines 126-139). -/
def size_less_than (isLeaf : Bool) (inodes : List Inode) (size : Nat) :
    Bool :=
  sizeLessThanLoop (page_element_size isLeaf) size inodes PAGE_HEADER_SIZE

/-- Loop of Node::split_index (src/node.rs lines 526-548): iterate i
over 0 .. len - MIN_KEYS_PER_PAGE, breaking when i ≥ MIN_KEYS_PER_PAGE
and adding the next element would exceed the threshold; rem counts the
remaining iterations. -/
def splitIndexGo (elsz threshold : Nat) (inodes : List Inode) :
    Nat → Nat → Nat → Nat → Nat × Nat
  | 0, _, sz, index => (index, sz)
  | rem + 1, i, sz, index =>
    let inode := inodes.getD i default
    let elsize := elsz + inode.key.length + inode.value.length
    if MIN_KEYS_PER_PAGE ≤ i ∧ sz + elsize > threshold then (index, sz)
    else splitIndexGo elsz threshold inodes rem (i + 1) (sz + elsize) i

/-- Node::split_index. -/
def split_index (isLeaf : Bool) (inodes : List Inode) (threshold : Nat) :
    Nat × Nat :=
  splitIndexGo (page_element_size isLeaf) threshold inodes
    (inodes.length - MIN_KEYS_PER_PAGE) 0 PAGE_HEADER_SIZE 0

/-- Node::split_two (src/node.rs lines 457-524).  The node is left whole
(second component none) when the inode count is at most
2 * MIN_KEYS_PER_PAGE or the serialized size is below page_size;
otherwise the inodes are split at split_index.  The source derives the
threshold from page_size * clamp(fill_percent, 0.1, 1.0) in f64
arithmetic; the already-computed threshold is taken as a parameter here
(it cannot influence whether a split happens, only where). -/
def split_two (isLeaf : Bool) (inodes : List Inode)
    (pageSize threshold : Nat) : List Inode × Option (List Inode) :=
  if inodes.length ≤ 2 * MIN_KEYS_PER_PAGE ∨
      size_less_than isLeaf inodes pageSize then
    (inodes, none)
  else
    let i := (split_index isLeaf inodes threshold).1
    (inodes.take i, some (inodes.drop i))

/-- Claim C8 (counterexample): a leaf node with exactly 4 inodes whose
serialized size is not below the page size (104 ≥ 32) is NOT split —
the guard in the source is count ≤ 2 * MIN_KEYS_PER_PAGE, not <. -/
theorem split_two_four_inodes_not_split :
    (split_two true
      [⟨0, 0, [1], [5, 5, 5, 5, 5]⟩, ⟨0, 0, [2], [5, 5, 5, 5, 5]⟩,
       ⟨0, 0, [3], [5, 5, 5, 5, 5]⟩, ⟨0, 0, [4], [5, 5, 5, 5, 5]⟩]
      32 16).2 = none ∧
    ([⟨0, 0, [1], [5, 5, 5, 5, 5]⟩, ⟨0, 0, [2], [5, 5, 5, 5, 5]⟩,
      ⟨0, 0, [3], [5, 5, 5, 5, 5]⟩,
      ⟨(0 : Nat), (0 : Nat), [4], [5, 5, 5, 5, 5]⟩] : List Inode).length
      = 4 ∧
    size_less_than true
      [⟨0, 0, [1], [5, 5, 5, 5, 5]⟩, ⟨0, 0, [2], [5, 5, 5, 5, 5]⟩,
       ⟨0, 0, [3], [5, 5, 5, 5, 5]⟩, ⟨0, 0, [4], [5, 5, 5, 5, 5]⟩]
      32 = false := by
  refine ⟨rfl, rfl, rfl⟩

/-- Claim C8 (amended): split_two leaves the node whole exactly when its
inode count is at most 2 * MIN_KEYS_PER_PAGE (= 4) or size_less_than
page_size holds; in particular a node with exactly 4 inodes is never
split, whatever its serialized size. -/
theorem split_two_no_split_iff (isLeaf : Bool) (inodes : List Inode)
    (pageSize threshold : Nat) :
    (split_two isLeaf inodes pageSize threshold).2 = none ↔
      (inodes.length ≤ 2 * MIN_KEYS_PER_PAGE ∨
        size_less_than isLeaf inodes pageSize = true) := by
  unfold split_two
  by_cases h : inodes.length ≤ 2 * MIN_KEYS_PER_PAGE ∨
      size_less_than isLeaf inodes pageSize
  · simp [h]
  · rw [if_neg h]
    simp only [reduceCtorEq, false_iff]
    simpa using h

/-!  Freelist page decoding (src/common/page.rs lines 285-327).  The
page body is modelled as the list of u64 slots following the header, and
dataAddr is the numeric address of the body start (the value of
get_data_ptr()), which the source erroneously uses as a count. -/

/-- Page::freelist_page_count: for a header count below 0xFFFF, returns
(0, count).  For count == 0xFFFF the source computes
`let count = (data_ptr) as usize` — the pointer VALUE, not the u64 it
points to — guards it against usize::MAX, and returns (1, count). -/
def freelist_page_count (dataAddr pageCount : Nat) :
    Except String (Nat × Nat) :=
  if pageCount = 0xFFFF then
    let count := dataAddr
    if count ≥ USIZE_MAX then .error "leading element count overflows usize"
    else .ok (1, count)
  else .ok (0, pageCount)

/-- Page::freelist_page_ids: takes (idx, count) from freelist_page_count
and returns count u64 slots — slicing from the body start, ignoring idx
(the leading overflow-count slot is never skipped). -/
def freelist_page_ids (dataAddr pageCount : Nat) (body : List Nat) :
    Except String (List Nat) :=
  match freelist_page_count dataAddr pageCount with
  | .error e => .error e
  | .ok (_idx, count) =>
    if count = 0 then .ok []
    else .ok (body.take count)

/-- Claim C5: on an overflow freelist page (header count 0xFFFF) with
body [2, 5, 9] — real count 2, ids [5, 9] — the readers never return
[5, 9], whatever address the page body happens to live at: the count is
taken from the pointer value and the leading u64 is not skipped. -/
theorem freelist_overflow_ids_wrong (dataAddr : Nat) :
    freelist_page_ids dataAddr 0xFFFF [2, 5, 9] ≠ .ok [5, 9] := by
  unfold freelist_page_ids freelist_page_count
  by_cases hmax : dataAddr ≥ USIZE_MAX
  · simp [hmax]
  · simp only [hmax, if_false, if_true, reduceIte]
    by_cases h0 : dataAddr = 0
    · simp [h0]
    · obtain ⟨n, rfl⟩ : ∃ n, dataAddr = n + 1 := ⟨dataAddr - 1, by omega⟩
      simp [List.take_succ_cons]

/-- Claim C5 (check of the non-overflow branch): for a header count
below 0xFFFF the ids are the first count slots of the body. -/
theorem freelist_small_count_ids (pageCount : Nat) (body : List Nat)
    (hc : pageCount < 0xFFFF) (hnz : pageCount ≠ 0) :
    freelist_page_ids 0 pageCount body = .ok (body.take pageCount) := by
  unfold freelist_page_ids freelist_page_count
  rw [if_neg (by omega)]
  simp [hnz]

/-- Witness for the non-overflow branch at a concrete page. -/
theorem freelist_small_count_ids_witness :
    (2 : Nat) < 0xFFFF ∧ (2 : Nat) ≠ 0 ∧
    freelist_page_ids 0 2 [7, 8, 9] = .ok ([7, 8, 9].take 2) :=
  ⟨by decide, by decide,
    freelist_small_count_ids 2 [7, 8, 9] (by decide) (by decide)⟩

/-!  Page element key/value accessors (src/common/page.rs).  A page is
modelled as its byte list; elemOff is the byte offset of the element
inside the page.  Field layout (repr C): BranchPageElement has pos u32
at +0, ksize u32 at +4, pgid u64 at +8; LeafPageElement has flags u32 at
+0, pos u32 at +4, ksize u32 at +8, vsize u32 at +12. -/

/-- Read a little-endian u32 at a byte offset. -/
def readU32LE (p : List Nat) (off : Nat) : Nat :=
  p.getD off 0 + 2 ^ 8 * p.getD (off + 1) 0 +
  2 ^ 16 * p.getD (off + 2) 0 + 2 ^ 24 * p.getD (off + 3) 0

/-- Byte slice of length len starting at start. -/
def extractBytes (p : List Nat) (start len : Nat) : List Nat :=
  (p.drop start).take len

/-- BranchPageElement::key (src/common/page.rs lines 532-539): returns
ksize bytes starting at ptr::addr_of!(self.pos) — the element start
itself; the stored pos offset is never added. -/
def branch_elem_key (p : List Nat) (elemOff : Nat) : List Nat :=
  let ksize := readU32LE p (elemOff + 4)
  extractBytes p elemOff ksize

/-- LeafPageElement::key (src/common/page.rs lines 599-605): returns
ksize bytes starting at ptr::addr_of!(self.pos) — element start + 4;
the stored pos offset is never added. -/
def leaf_elem_key (p : List Nat) (elemOff : Nat) : List Nat :=
  let ksize := readU32LE p (elemOff + 8)
  extractBytes p (elemOff + 4) ksize

/-- LeafPageElement::value (src/common/page.rs lines 607-616): returns
vsize bytes starting at ptr::addr_of!(self.vsize) — element start + 12;
neither pos nor ksize is added. -/
def leaf_elem_value (p : List Nat) (elemOff : Nat) : List Nat :=
  let vsize := readU32LE p (elemOff + 12)
  extractBytes p (elemOff + 12) vsize

/-- A concrete leaf page: 16-byte header, one element at offset 16 with
flags 0, pos 16, ksize 1, vsize 1, then key byte 170 and value byte 187
at offset 32 (= element start + pos). -/
def leafPageCex : List Nat :=
  List.replicate 16 0 ++
  [0, 0, 0, 0, 16, 0, 0, 0, 1, 0, 0, 0, 1, 0, 0, 0, 170, 187]

/-- A concrete branch page: 16-byte header, one element at offset 16
with pos 16, ksize 1, pgid 9, then key byte 170 at offset 32. -/
def branchPageCex : List Nat :=
  List.replicate 16 0 ++
  [16, 0, 0, 0, 1, 0, 0, 0, 9, 0, 0, 0, 0, 0, 0, 0, 170]

/-- Claim C6: key() must return the ksize bytes pos bytes past the
element start, and leaf value() the vsize bytes right after them.  On
the concrete pages the accessors return element-header bytes instead:
the pos offset is never added to the base pointer. -/
theorem page_element_accessors_ignore_pos :
    leaf_elem_key leafPageCex 16 ≠
      extractBytes leafPageCex (16 + readU32LE leafPageCex 20)
        (readU32LE leafPageCex 24) ∧
    leaf_elem_value leafPageCex 16 ≠
      extractBytes leafPageCex
        (16 + readU32LE leafPageCex 20 + readU32LE leafPageCex 24)
        (readU32LE leafPageCex 28) ∧
    branch_elem_key branchPageCex 16 ≠
      extractBytes branchPageCex (16 + readU32LE branchPageCex 16)
        (readU32LE branchPageCex 20) := by
  refine ⟨by decide, by decide, by decide⟩

/-!  Cursor (src/cursor.rs RawCursor).  Bucket::page_node returns either
a cached Node or the mmap-backed Page; ElemRef dispatches is_leaf() and
count() over whichever it holds, and both give the element list of the
underlying page, so a page-or-node is modelled as one record.  A bucket
is a root pgid plus a mapping from pgid to that record. -/

/-- One element of a page-or-node as the cursor sees it. -/
structure CElem where
  flags : Nat
  pgid : Nat
  key : List Nat
  value : List Nat
deriving DecidableEq, Repr

/-- A page-or-node: leaf bit plus elements. -/
structure CPage where
  isLeaf : Bool
  elems : List CElem
deriving DecidableEq, Repr

/-- ElemRef (src/cursor.rs): a stack frame holding the page-or-node and
the current index within it. -/
structure ElemRef where
  page : CPage
  index : Nat
deriving DecidableEq, Repr

/-- ElemRef::count. -/
def elemCount (r : ElemRef) : Nat := r.page.elems.length

/-- Entry data returned by the cursor. -/
structure RawEntry where
  key : List Nat
  value : List Nat
  flags : Nat
deriving DecidableEq, Repr

/-- RawCursorApi::key_value is todo!() in the source (src/cursor.rs
line 363-365): every call panics with the todo message. -/
def key_value (_stack : List ElemRef) : Except String (Option RawEntry) :=
  .error "not yet implemented"

/-- go_to_first_element_on_the_stack (src/cursor.rs lines 314-344):
while the top frame is not a leaf, read the child pgid of the branch
element at the frame index and push that page-or-node at index 0.  The
source loops unboundedly; fuel bounds the descent depth and is never
exhausted on trees whose depth it exceeds. -/
def go_to_first_element_on_the_stack (pageOf : Nat → CPage) :
    Nat → List ElemRef → Except String (List ElemRef)
  | 0, _ => .error "descent fuel exhausted"
  | fuel + 1, stack =>
    match stack.getLast? with
    | none => .error "called Option unwrap on a None value"
    | some r =>
      if r.page.isLeaf then .ok stack
      else
        match r.page.elems.get? r.index with
        | none => .error "index out of bounds"
        | some elem =>
          go_to_first_element_on_the_stack pageOf fuel
            (stack ++ [ElemRef.mk (pageOf elem.pgid) 0])

/-- The for-loop of raw_next over the stack from the top frame down:
find the deepest-from-top frame whose index can still advance.  The
comparison in the source is elem.index < elem.count() - 1 on u32, which
underflows when the frame is empty (count 0); rev is the reversed stack
and depth the absolute depth of its head. -/
def advanceFromTop : List ElemRef → Nat →
    Except String (Option (List ElemRef × Nat))
  | [], _ => .ok none
  | f :: rest, depth =>
    if elemCount f = 0 then .error "attempt to subtract with overflow"
    else if f.index < elemCount f - 1 then
      .ok (some ((ElemRef.mk f.page (f.index + 1)) :: rest, depth))
    else advanceFromTop rest (depth - 1)

/-- RawCursor::raw_next (src/cursor.rs lines 255-287): try to advance
some frame; when the whole stack is exhausted return None; otherwise pop
the stack, truncate it to the advanced depth + 1, descend to the first
leaf element and return key_value() — which is todo!(). -/
def raw_next (pageOf : Nat → CPage) (fuel : Nat) (stack : List ElemRef) :
    Except String (Option RawEntry × List ElemRef) :=
  match advanceFromTop stack.reverse (stack.length - 1) with
  | .error e => .error e
  | .ok none => .ok (none, stack)
  | .ok (some (rev1, depth)) =>
    let stack1 := rev1.reverse
    let stack2 := stack1.dropLast
    let stack3 := stack2.take (depth + 1)
    match go_to_first_element_on_the_stack pageOf fuel stack3 with
    | .error e => .error e
    | .ok stack4 =>
      match key_value stack4 with
      | .error e => .error e
      | .ok entry => .ok (entry, stack4)

/-- RawCursor::raw_first (src/cursor.rs lines 229-251): clear the stack,
push the root page-or-node at index 0, descend to the first leaf; when
the leaf is empty call raw_next (its returned value is discarded, its
panics propagate); finally return key_value(). -/
def raw_first (root : Nat) (pageOf : Nat → CPage) (fuel : Nat) :
    Except String (Option RawEntry) :=
  let stack0 : List ElemRef := [ElemRef.mk (pageOf root) 0]
  match go_to_first_element_on_the_stack pageOf fuel stack0 with
  | .error e => .error e
  | .ok stack1 =>
    match stack1.getLast? with
    | none => .error "called Option unwrap on a None value"
    | some top =>
      if elemCount top = 0 then
        match raw_next pageOf fuel stack1 with
        | .error e => .error e
        | .ok _ => key_value stack1
      else key_value stack1

/-- Claim C9: on a bucket whose root is an empty leaf, first() is said
to return no entry normally.  Instead raw_first reaches raw_next, whose
frame-advance comparison computes count() - 1 = 0 - 1 on u32 and
panics with an arithmetic underflow (and key_value, the only way any
entry is ever produced, is an unconditional todo!()). -/
theorem raw_first_empty_leaf_panics :
    raw_first 3 (fun _ => CPage.mk true []) 8 =
      .error "attempt to subtract with overflow" := by
  rfl

/-!  PgIds::extend_from_slice (src/common/page.rs lines 699-713):
Vec::extend_from_slice, then a stable sort, then Vec::dedup, which
removes consecutive repeated elements. -/

/-- Vec::dedup on a list: drop consecutive repeats, keeping one element
per run. -/
def dedupConsec : List Nat → List Nat
  | [] => []
  | [a] => [a]
  | a :: b :: rest =>
    if a = b then dedupConsec (b :: rest)
    else a :: dedupConsec (b :: rest)

/-- PgIds::extend_from_slice: append the other id list, sort (Rust
Vec::sort is a stable merge sort), dedup. -/
def extend_from_slice (a b : List Nat) : List Nat :=
  dedupConsec ((a ++ b).mergeSort (fun x y => decide (x ≤ y)))

theorem mem_dedupConsec : ∀ (l : List Nat) (x : Nat),
    x ∈ dedupConsec l ↔ x ∈ l
  | [], x => by simp [dedupConsec]
  | [a], x => by simp [dedupConsec]
  | a :: b :: rest, x => by
    by_cases hab : a = b
    · subst hab
      rw [dedupConsec, if_pos rfl, mem_dedupConsec (a :: rest) x]
      simp only [List.mem_cons]
      tauto
    · rw [dedupConsec, if_neg hab]
      simp only [List.mem_cons, mem_dedupConsec (b :: rest) x,
        List.mem_cons]

theorem sorted_lt_dedupConsec : ∀ l : List Nat,
    l.Sorted (· ≤ ·) → (dedupConsec l).Sorted (· < ·)
  | [], _ => by simp [dedupConsec]
  | [a], _ => by simp [dedupConsec]
  | a :: b :: rest, h => by
    have htail : (b :: rest).Sorted (· ≤ ·) := h.of_cons
    by_cases hab : a = b
    · rw [dedupConsec, if_pos hab]
      exact sorted_lt_dedupConsec (b :: rest) htail
    · rw [dedupConsec, if_neg hab]
      refine List.sorted_cons.mpr ⟨?_, sorted_lt_dedupConsec (b :: rest) htail⟩
      intro x hx
      have hx1 : x ∈ b :: rest := (mem_dedupConsec (b :: rest) x).mp hx
      have hab2 : a ≤ b := List.rel_of_sorted_cons h b (by simp)
      have hbx : b ≤ x := by
        rcases List.mem_cons.mp hx1 with rfl | hxr
        · exact le_refl _
        · exact List.rel_of_sorted_cons htail x hxr
      omega

/-- Claim C10: after extend_from_slice the id list is sorted ascending,
has no duplicates, and its elements are exactly the union of the
elements of the two input lists. -/
theorem extend_from_slice_spec (a b : List Nat) :
    (extend_from_slice a b).Sorted (· ≤ ·) ∧
    (extend_from_slice a b).Nodup ∧
    ∀ x, x ∈ extend_from_slice a b ↔ (x ∈ a ∨ x ∈ b) := by
  have hs : ((a ++ b).mergeSort (fun x y => decide (x ≤ y))).Sorted
      (· ≤ ·) := by
    have hp := @List.sorted_mergeSort Nat
      (fun x y : Nat => decide (x ≤ y))
      (fun x y z hxy hyz => by
        simp only [decide_eq_true_eq] at *
        omega)
      (fun x y => by
        simp only [Bool.or_eq_true, decide_eq_true_eq]
        omega)
      (a ++ b)
    exact hp.imp (fun hab => by simpa using hab)
  have hlt := sorted_lt_dedupConsec _ hs
  refine ⟨hlt.imp (fun hab => le_of_lt hab), hlt.nodup, fun x => ?_⟩
  rw [extend_from_slice, mem_dedupConsec, List.mem_mergeSort,
    List.mem_append]
